import Mathlib

/-!
Verification development for the webRTC-connect signaling server
(src/webRTC_external/server.py).

The server keeps three global in-memory maps (ROOMS, PEER_TO_ROOM,
ROOM_ADMINS) plus metric counters, and dispatches JSON messages arriving on
one WebSocket per peer.  Python dictionaries are modelled as association
lists over String keys; Python None / falsiness is modelled explicitly
(Option plus truthiness predicates).  JSON scalar payload values are
modelled by the inductive Value below (null, integers, strings); the claims
under study never depend on floats, booleans or nested documents beyond the
shapes modelled here.  A Python exception escaping a handler is modelled by
an Option-valued result (none = uncaught exception).
-/

set_option maxRecDepth 8192

namespace WebRTC

/-- JSON scalar values as they appear in peer properties, filter values and
payloads.  Python None and JSON null are both vNull; in the source a missing
dictionary entry read through dict.get is also None, hence indistinguishable
from a stored null. -/
inductive Value where
  | vNull : Value
  | vInt (n : Int) : Value
  | vStr (s : String) : Value
deriving DecidableEq, Repr

/-- Python truthiness of a scalar value (None, 0 and the empty string are
falsy). -/
def Value.truthy : Value → Bool
  | .vNull => false
  | .vInt n => n ≠ 0
  | .vStr s => s ≠ ""

/-- Python truthiness of an optional string (None and the empty string are
falsy). -/
def truthyO : Option String → Bool
  | none => false
  | some s => s ≠ ""

/-- Check of a fixed literal prefix on a string, mirroring the Python
startswith call; stated over the character lists so that it evaluates by
kernel reduction. -/
def strStartsWith (s p : String) : Bool := p.data.isPrefixOf s.data

/-- Python truthiness of an optional scalar payload. -/
def truthyV : Option Value → Bool
  | none => false
  | some v => v.truthy

/-- Lookup in an association list, mirroring Python dict.get. -/
def alGet {α : Type} (l : List (String × α)) (k : String) : Option α :=
  match l with
  | [] => none
  | e :: rest => if e.1 = k then some e.2 else alGet rest k

/-- Assignment d[k] = v on an association list: replace the binding in
place when the key is present, append a new one otherwise (Python dicts
keep insertion order). -/
def alInsert {α : Type} (l : List (String × α)) (k : String) (v : α) :
    List (String × α) :=
  match l with
  | [] => [(k, v)]
  | e :: rest => if e.1 = k then (k, v) :: rest else e :: alInsert rest k v

/-- Deletion del d[k] on an association list. -/
def alErase {α : Type} (l : List (String × α)) (k : String) :
    List (String × α) :=
  l.filter (fun e => e.1 ≠ k)

/-- Python dict merge of two string-keyed dicts, as in the expression
that splats the old dict and then the new dict: bindings of the second
argument win, insertion order of the first is kept. -/
def dictMerge {α : Type} (old new : List (String × α)) : List (String × α) :=
  old.map (fun e => (e.1, ((alGet new e.1).getD e.2))) ++
    new.filter (fun e => (alGet old e.1).isNone)

/-- Peer metadata: an open JSON document of which the server reads the keys
tags, properties, _otp_secret and _worker_name.  A none field models the key
being absent from the dict. -/
structure Metadata where
  tags : Option (List String) := none
  properties : Option (List (String × Value)) := none
  otpSecret : Option String := none
  workerName : Option String := none
deriving DecidableEq, Repr

/-- The empty metadata dict. -/
def Metadata.empty : Metadata := {}

/-- Python truthiness of a metadata dict (the empty dict is falsy). -/
def Metadata.truthy (m : Metadata) : Bool := m ≠ Metadata.empty

/-- A live peer entry stored in ROOMS under its room and peer id
(server.py, handle_register): websocket handle, role, metadata and
connection timestamp. -/
structure Peer where
  websocket : Nat
  role : String
  metadata : Metadata
  connected_at : Nat
deriving DecidableEq, Repr

/-- Filter value for one properties entry of a discover_peers filter:
either a scalar compared for equality, or an operator document of which the
source reads the keys gte, lte and eq (written with a dollar sign in JSON);
unrecognized operator keys are never read and are therefore not modelled. -/
inductive FilterVal where
  | scalar (v : Value) : FilterVal
  | ops (gte : Option Value) (lte : Option Value) (eq : Option Value) : FilterVal
deriving DecidableEq, Repr

/-- Discovery filters (server.py, matches_filters): optional role, tags and
properties clauses; a none clause models the key being absent. -/
structure Filters where
  role : Option String := none
  tags : Option (List String) := none
  properties : Option (List (String × FilterVal)) := none
deriving DecidableEq, Repr

/-- Strict lexicographic comparison of two character lists by code point,
as Python compares strings. -/
def strLtB : List Char → List Char → Bool
  | _, [] => false
  | [], _ :: _ => true
  | a :: as, b :: bs =>
    if a.toNat = b.toNat then strLtB as bs else decide (a.toNat < b.toNat)

/-- Lexicographic less-or-equal on character lists by code point. -/
def strLeB : List Char → List Char → Bool
  | [], _ => true
  | _ :: _, [] => false
  | a :: as, b :: bs =>
    if a.toNat = b.toNat then strLeB as bs else decide (a.toNat < b.toNat)

/-- Python comparison a < b on scalar values: defined between two ints and
between two strings (code point order), a TypeError (none) otherwise.
The source only compares after guarding the peer value against None. -/
def pyLt : Value → Value → Option Bool
  | .vInt a, .vInt b => some (a < b)
  | .vStr a, .vStr b => some (strLtB a.data b.data)
  | _, _ => none

/-- The gte check of one operator document (server.py line 1296): absent
operator passes, a None peer value fails, otherwise the clause fails when
peer_value < bound; some true means the check passed, some false that the
whole clause returns False, none a TypeError. -/
def gteStep (pv : Value) : Option Value → Option Bool
  | none => some true
  | some gv =>
    if pv = Value.vNull then some false
    else
      match pyLt pv gv with
      | none => none
      | some true => some false
      | some false => some true

/-- The lte check (server.py line 1298): the clause fails when
peer_value > bound. -/
def lteStep (pv : Value) : Option Value → Option Bool
  | none => some true
  | some lv =>
    if pv = Value.vNull then some false
    else
      match pyLt lv pv with
      | none => none
      | some true => some false
      | some false => some true

/-- Evaluation of one properties filter clause against the peer properties
dict (server.py, matches_filters, properties loop body).  The peer value is
read with dict.get, so a missing key yields Python None (vNull).  Returns
none when the underlying comparison raises TypeError. -/
def matchProperty (props : List (String × Value)) (key : String)
    (fv : FilterVal) : Option Bool :=
  let pv : Value := (alGet props key).getD Value.vNull
  match fv with
  | .scalar v => some (pv = v)
  | .ops g l e =>
    match gteStep pv g with
    | none => none
    | some false => some false
    | some true =>
      match lteStep pv l with
      | none => none
      | some false => some false
      | some true =>
        match e with
        | none => some true
        | some ev => some (pv = ev)

/-- Sequential evaluation of the properties clauses in dict order, stopping
at the first failing clause, propagating a TypeError (none) as the source
loop does. -/
def checkProperties (props : List (String × Value)) :
    List (String × FilterVal) → Option Bool
  | [] => some true
  | (k, fv) :: rest =>
    match matchProperty props k fv with
    | none => none
    | some false => some false
    | some true => checkProperties props rest

/-- Translation of matches_filters (server.py lines 1265-1305): role exact
match, tags any-intersection, then the properties clauses. -/
def matches_filters (peer_data : Peer) (filters : Filters) : Option Bool :=
  if (match filters.role with
      | some r => peer_data.role != r
      | none => false) then some false
  else
    let metadata := peer_data.metadata
    if (match filters.tags with
        | some fts => ((metadata.tags.getD []).filter
            (fun t => fts.contains t)).isEmpty
        | none => false) then some false
    else
      match filters.properties with
      | none => some true
      | some ps => checkProperties (metadata.properties.getD []) ps

/-- An in-memory live room (one value of the global ROOMS dict): the fields
stored at creation in handle_register plus the peers dict. -/
structure RoomLive where
  created_by : Option String := none
  token : Option String := none
  expires_at : Option Nat := none
  peers : List (String × Peer) := []
deriving DecidableEq, Repr

/-- The global mutable state of the signaling server: ROOMS, PEER_TO_ROOM,
ROOM_ADMINS and the METRICS counters touched by the WebSocket plane. -/
structure ServerState where
  rooms : List (String × RoomLive) := []
  peerToRoom : List (String × String) := []
  roomAdmins : List (String × String) := []
  totalConnections : Nat := 0
  totalMessages : Nat := 0
  activeConnections : Nat := 0
deriving DecidableEq, Repr

/-- Recomputation of the active_connections metric from the registry. -/
def sumPeers (rooms : List (String × RoomLive)) : Nat :=
  (rooms.map (fun e => e.2.peers.length)).sum

/-- One entry of a discover_peers reply: the peer record without the
websocket object. -/
structure PeerInfo where
  peer_id : String
  role : String
  metadata : Metadata
  connected_at : Nat
deriving DecidableEq, Repr

/-- Messages the server writes to a WebSocket (the JSON envelopes built in
server.py).  The registeredAuth constructor omits the two constant ICE
configuration fields, which are independent of all server state. -/
inductive OutMsg where
  | errorMsg (reason : String) : OutMsg
  | errorCode (code : String) (message : String) : OutMsg
  | legacyError (error : String) : OutMsg
  | adminConflict (room_id : String) (current_admin : String) : OutMsg
  | registeredAuth (room_id : String) (token : Option String) (peer_id : String)
      (admin_peer_id : Option String) (peer_list : List String)
      (peer_metadata : List (String × Metadata)) (otp_secret : Option String) : OutMsg
  | peerList (to_peer_id : String) (peers : List PeerInfo) (count : Nat) : OutMsg
  | metadataUpdated (peer_id : String) (metadata : Metadata) : OutMsg
  | peerMessage (from_peer_id to_peer_id : String) (payload : Value) : OutMsg
  | meshOffer (from_peer_id : String) (offer : Value) : OutMsg
  | meshAnswerMsg (from_peer_id : String) (answer : Value) : OutMsg
  | iceCandidateMsg (from_peer_id : String) (candidate : Value) : OutMsg
  | legacyForward (kind : String) (sender target : String) : OutMsg
deriving DecidableEq, Repr

/-- A WorkerToken row of the worker_tokens DynamoDB table. -/
structure TokenData where
  room_id : String
  user_id : String
  worker_name : String
  revoked_at : Option String := none
  expires_at : Option Nat := none
deriving DecidableEq, Repr

/-- A Room row of the rooms DynamoDB table (the fields handle_register
reads). -/
structure RoomData where
  token : Option String := none
  otp_secret : Option String := none
  expires_at : Option Nat := none
deriving DecidableEq, Repr

/-- Claims of a verified session JWT (the fields handle_register reads). -/
structure JwtClaims where
  sub : String
  username : Option String := none
deriving DecidableEq, Repr

/-- The read-only environment of a register call: the persistent tables,
the credential verifiers (modelled as lookup tables from the credential
string to its claims, absence meaning verification failure), the current
time, and the hex fragment the uuid4 call would produce for a synthesized
peer id. -/
structure Env where
  worker_tokens : List (String × TokenData) := []
  rooms_table : List (String × RoomData) := []
  room_memberships : List (String × String) := []
  jwt_claims : List (String × JwtClaims) := []
  cognito_subs : List (String × String) := []
  now : Nat := 0
  fresh_hex : String := ""
deriving DecidableEq, Repr

/-- The fields of a register message (server.py, handle_register,
lines 987-999).  Absent JSON keys are none; role, metadata and is_admin
carry the dict.get defaults of the source. -/
structure RegisterMsg where
  peer_id : Option String := none
  role : String := "peer"
  metadata : Metadata := {}
  is_admin : Bool := false
  api_key : Option String := none
  jwt : Option String := none
  id_token : Option String := none
  room_id : Option String := none
  token : Option String := none
deriving DecidableEq, Repr

/-- Common tail of handle_register (server.py lines 1130-1226): room
validation, registry insertion, admin designation, metrics, and the
registered_auth response. -/
def registerFinish (env : Env) (st : ServerState) (ws : Nat)
    (room_id : String) (uid : Option String) (room_data : Option RoomData)
    (peer_id : String) (role : String) (metadata : Metadata)
    (is_admin : Bool) (msg_token : Option String) (legacy : Bool) :
    List OutMsg × ServerState :=
  match room_data with
  | none => ([.errorMsg "Room not found"], st)
  | some rd =>
    if legacy && msg_token != rd.token then ([.errorMsg "Invalid token"], st)
    else if (match rd.expires_at with
             | some e => decide (env.now > e)
             | none => false) then ([.errorMsg "Room expired"], st)
    else
      let freshRoom : RoomLive :=
        { created_by := uid, token := rd.token, expires_at := rd.expires_at,
          peers := [] }
      let rooms1 :=
        if (alGet st.rooms room_id).isSome then st.rooms
        else alInsert st.rooms room_id freshRoom
      let room := (alGet rooms1 room_id).getD freshRoom
      let newPeer : Peer :=
        { websocket := ws, role := role, metadata := metadata,
          connected_at := env.now }
      let room2 := { room with peers := alInsert room.peers peer_id newPeer }
      let rooms2 := alInsert rooms1 room_id room2
      let p2r := alInsert st.peerToRoom peer_id room_id
      let adminStep : List OutMsg × List (String × String) :=
        if is_admin then
          match alGet st.roomAdmins room_id with
          | some ca =>
            if truthyO (some ca) && ca != peer_id then
              ([.adminConflict room_id ca], st.roomAdmins)
            else ([], alInsert st.roomAdmins room_id peer_id)
          | none => ([], alInsert st.roomAdmins room_id peer_id)
        else ([], st.roomAdmins)
      let admins2 := adminStep.2
      let st1 : ServerState :=
        { st with
            rooms := rooms2
            peerToRoom := p2r
            roomAdmins := admins2
            totalConnections := st.totalConnections + 1
            activeConnections := sumPeers rooms2 }
      let peer_list := (room2.peers.map Prod.fst).filter (fun pid => pid ≠ peer_id)
      let peer_metadata := (room2.peers.filter (fun e => e.1 ≠ peer_id)).map
        (fun e => (e.1, e.2.metadata))
      let otp : Option String :=
        if role = "worker" && truthyO metadata.otpSecret then metadata.otpSecret
        else none
      (adminStep.1 ++
        [.registeredAuth room_id msg_token peer_id (alGet admins2 room_id)
          peer_list peer_metadata otp], st1)

/-- Path 1 of handle_register: worker API key authentication (server.py
lines 1007-1052).  A DynamoDB failure is not modelled (the tables are pure
lookups here). -/
def registerApiKey (env : Env) (st : ServerState) (ws : Nat)
    (m : RegisterMsg) (key : String) : List OutMsg × ServerState :=
  match alGet env.worker_tokens key with
  | none => ([.errorMsg "Invalid API key"], st)
  | some td =>
    if truthyO td.revoked_at then ([.errorMsg "Token revoked"], st)
    else if (match td.expires_at with
             | some e => decide (env.now > e)
             | none => false) then ([.errorMsg "Token expired"], st)
    else
      let room_id := td.room_id
      let synth := "worker-" ++ td.worker_name ++ "-" ++ env.fresh_hex
      let peer_id := if truthyO m.peer_id then m.peer_id.getD "" else synth
      match alGet env.rooms_table room_id with
      | none => ([.errorMsg "Room not found"], st)
      | some rd =>
        let metadata :=
          { m.metadata with
              otpSecret := rd.otp_secret
              workerName := some td.worker_name }
        registerFinish env st ws room_id (some td.user_id) (some rd) peer_id
          m.role metadata m.is_admin m.token false

/-- Path 2 of handle_register: session JWT authentication (server.py lines
1057-1095). -/
def registerJwt (env : Env) (st : ServerState) (ws : Nat)
    (m : RegisterMsg) (jt : String) : List OutMsg × ServerState :=
  match alGet env.jwt_claims jt with
  | none => ([.errorMsg "Invalid token"], st)
  | some cl =>
    if ¬ truthyO m.room_id then
      ([.errorMsg "room_id required for JWT auth"], st)
    else
      let rid := m.room_id.getD ""
      if (cl.sub, rid) ∈ env.room_memberships then
        match alGet env.rooms_table rid with
        | none => ([.errorMsg "Room not found"], st)
        | some rd =>
          let synth := "client-" ++ cl.username.getD "user" ++ "-" ++ env.fresh_hex
          let peer_id := if truthyO m.peer_id then m.peer_id.getD "" else synth
          registerFinish env st ws rid (some cl.sub) (some rd) peer_id
            m.role m.metadata m.is_admin m.token false
      else ([.errorMsg "No access to this room"], st)

/-- Path 3 of handle_register: legacy Cognito authentication (server.py
lines 1100-1118).  The legacy flag handed to the common tail reproduces
the guard of the room-password check at line 1139 (id_token truthy, api_key
and jwt both falsy), so a legacy registration that also carries a truthy
non-worker api_key skips the password check, as the source does. -/
def registerLegacy (env : Env) (st : ServerState) (ws : Nat)
    (m : RegisterMsg) : List OutMsg × ServerState :=
  if ¬ (truthyO m.peer_id && truthyO m.room_id && truthyO m.token &&
        truthyO m.id_token) then
    ([.errorMsg "Missing required fields during registration."], st)
  else
    match alGet env.cognito_subs (m.id_token.getD "") with
    | none => ([.legacyError "Invalid token"], st)
    | some sub =>
      let rid := m.room_id.getD ""
      registerFinish env st ws rid (some sub) (alGet env.rooms_table rid)
        (m.peer_id.getD "") m.role m.metadata m.is_admin m.token
        (truthyO m.id_token && !truthyO m.api_key && !truthyO m.jwt)

/-- Translation of handle_register (server.py lines 977-1226): the three
credential shapes are tried in priority order, then the common room
validation and registry update run. -/
def handle_register (env : Env) (st : ServerState) (ws : Nat)
    (m : RegisterMsg) : List OutMsg × ServerState :=
  match m.api_key with
  | some key =>
    if truthyO (some key) && strStartsWith key "slp_" then
      registerApiKey env st ws m key
    else if truthyO m.jwt then registerJwt env st ws m (m.jwt.getD "")
    else if truthyO m.id_token then registerLegacy env st ws m
    else ([.errorMsg "No authentication provided. Use api_key, jwt, or id_token."], st)
  | none =>
    if truthyO m.jwt then registerJwt env st ws m (m.jwt.getD "")
    else if truthyO m.id_token then registerLegacy env st ws m
    else ([.errorMsg "No authentication provided. Use api_key, jwt, or id_token."], st)

/-- Result of one dispatched message: the replies written to the sending
socket, the frames written to other sockets (socket handle, frame), and the
new server state. -/
structure HResult where
  toSender : List OutMsg
  writes : List (Nat × OutMsg)
  state : ServerState
deriving DecidableEq, Repr

/-- Translation of cleanup_peer (server.py lines 1746-1785): remove the
peer from PEER_TO_ROOM and from the room, clear the admin designation if it
pointed at this peer, drop the room once empty, recompute the metric. -/
def cleanup_peer (st : ServerState) (peer_id : String) : ServerState :=
  match alGet st.peerToRoom peer_id with
  | none => st
  | some room_id =>
    let p2r := alErase st.peerToRoom peer_id
    let step1 : List (String × RoomLive) × Option RoomLive :=
      match alGet st.rooms room_id with
      | some room =>
        if (alGet room.peers peer_id).isSome then
          let room2 := { room with peers := alErase room.peers peer_id }
          (alInsert st.rooms room_id room2, some room2)
        else (st.rooms, some room)
      | none => (st.rooms, none)
    let rooms1 := step1.1
    let admins1 :=
      if alGet st.roomAdmins room_id = some peer_id then
        alErase st.roomAdmins room_id
      else st.roomAdmins
    let step2 : List (String × RoomLive) × List (String × String) :=
      match step1.2 with
      | some room2 =>
        if room2.peers.isEmpty then
          (alErase rooms1 room_id,
           if (alGet admins1 room_id).isSome then alErase admins1 room_id
           else admins1)
        else (rooms1, admins1)
      | none => (rooms1, admins1)
    { st with
        peerToRoom := p2r
        rooms := step2.1
        roomAdmins := step2.2
        activeConnections := sumPeers step2.1 }

/-- Merge policy of handle_update_metadata (server.py lines 1420-1438): the
new metadata dict replaces the old one wholesale, after its tags entry (if
present) is widened to the union of old and new tags and its properties
entry (if present) is widened to the dict merge where new keys win.  The
source builds the tag union through Python sets, whose iteration order is
unspecified; the dedup of the concatenation is one representative and all
statements about tags are membership statements. -/
def merge_metadata (old new : Metadata) : Metadata :=
  let new1 :=
    match new.tags with
    | some nts => { new with tags := some ((old.tags.getD [] ++ nts).dedup) }
    | none => new
  match new.properties with
  | some nps =>
    { new1 with properties := some (dictMerge (old.properties.getD []) nps) }
  | none => new1

/-- Translation of handle_update_metadata (server.py lines 1372-1447).
The handler receives only the message fields; the source never consults
which connection sent the message. -/
def handle_update_metadata (st : ServerState) (peer_id : Option String)
    (metadata : Option Metadata) : List OutMsg × ServerState :=
  if ¬ (truthyO peer_id && (match metadata with
                            | some md => md.truthy
                            | none => false)) then
    ([.errorCode "INVALID_MESSAGE" "Missing required fields: peer_id, metadata"], st)
  else
    let pid := peer_id.getD ""
    let md := metadata.getD {}
    match alGet st.peerToRoom pid with
    | none => ([.errorCode "NOT_IN_ROOM" "Peer not in any room"], st)
    | some rid =>
      match alGet st.rooms rid with
      | none => ([.errorCode "PEER_NOT_FOUND" "Peer not found in room"], st)
      | some room =>
        match alGet room.peers pid with
        | none => ([.errorCode "PEER_NOT_FOUND" "Peer not found in room"], st)
        | some pd =>
          let merged := merge_metadata pd.metadata md
          let room2 := { room with
            peers := alInsert room.peers pid { pd with metadata := merged } }
          ([.metadataUpdated pid merged],
            { st with rooms := alInsert st.rooms rid room2 })

/-- Loop body of handle_discover_peers (server.py lines 1346-1359):
collect the matching peers in room order, skipping the caller, propagating
a TypeError from matches_filters (none) as the source loop does. -/
def collectMatches (fpid : String) (filters : Filters) :
    List (String × Peer) → Option (List PeerInfo)
  | [] => some []
  | (pid, pd) :: rest =>
    if pid = fpid then collectMatches fpid filters rest
    else
      match matches_filters pd filters with
      | none => none
      | some true =>
        (collectMatches fpid filters rest).map
          (fun l => ⟨pid, pd.role, pd.metadata, pd.connected_at⟩ :: l)
      | some false => collectMatches fpid filters rest

/-- Translation of handle_discover_peers (server.py lines 1308-1369).
A none result models a TypeError escaping the filter loop. -/
def handle_discover_peers (st : ServerState) (from_peer_id : Option String)
    (filters : Filters) : Option (List OutMsg × ServerState) :=
  match from_peer_id.bind (fun f => alGet st.peerToRoom f) with
  | none =>
    some ([.errorCode "NOT_IN_ROOM" "Peer not registered in any room"], st)
  | some rid =>
    match alGet st.rooms rid with
    | none => some ([.errorCode "ROOM_NOT_FOUND" "Room not found"], st)
    | some room =>
      let fpid := from_peer_id.getD ""
      match collectMatches fpid filters room.peers with
      | none => none
      | some entries =>
        some ([.peerList fpid entries entries.length], st)

/-- Translation of handle_peer_message (server.py lines 1450-1524).  The
none result models the unguarded room dereference raising when the sender
room is registered in PEER_TO_ROOM but absent from ROOMS.  Socket writes
are recorded rather than performed; the delivery-failure branch of the
source is therefore out of the modelled behavior. -/
def handle_peer_message (st : ServerState)
    (from_peer_id to_peer_id : Option String) (payload : Option Value) :
    Option HResult :=
  if ¬ (truthyO from_peer_id && truthyO to_peer_id && truthyV payload) then
    some ⟨[.errorCode "INVALID_MESSAGE"
      "Missing required fields: from_peer_id, to_peer_id, payload"], [], st⟩
  else
    let f := from_peer_id.getD ""
    let t := to_peer_id.getD ""
    match alGet st.peerToRoom f with
    | none => some ⟨[.errorCode "NOT_IN_ROOM" "Sender not in any room"], [], st⟩
    | some rid =>
      if alGet st.peerToRoom t ≠ some rid then
        some ⟨[.errorCode "PEER_NOT_IN_ROOM" "Target peer not in same room"], [], st⟩
      else
        match alGet st.rooms rid with
        | none => none
        | some room =>
          match alGet room.peers t with
          | none =>
            some ⟨[.errorCode "PEER_NOT_FOUND" "Target peer not found"], [], st⟩
          | some tp =>
            some ⟨[], [(tp.websocket, .peerMessage f t (payload.getD .vNull))],
              { st with totalMessages := st.totalMessages + 1 }⟩

/-- Translation of handle_mesh_connect (server.py lines 1527-1600). -/
def handle_mesh_connect (st : ServerState)
    (from_peer_id target_peer_id : Option String) (offer : Option Value) :
    HResult :=
  if ¬ (truthyO from_peer_id && truthyO target_peer_id && truthyV offer) then
    ⟨[.errorCode "INVALID_MESSAGE"
      "Missing required fields: from_peer_id, target_peer_id, offer"], [], st⟩
  else
    let f := from_peer_id.getD ""
    let t := target_peer_id.getD ""
    match alGet st.peerToRoom f with
    | none => ⟨[.errorCode "NOT_IN_ROOM" "Sender not in any room"], [], st⟩
    | some rid =>
      match alGet st.rooms rid with
      | none => ⟨[.errorCode "ROOM_NOT_FOUND" "Room not found"], [], st⟩
      | some room =>
        match alGet room.peers t with
        | none => ⟨[.errorCode "PEER_NOT_FOUND" "peer_not_found"], [], st⟩
        | some tp =>
          ⟨[], [(tp.websocket, .meshOffer f (offer.getD .vNull))],
            { st with totalMessages := st.totalMessages + 1 }⟩

/-- Translation of handle_mesh_answer (server.py lines 1603-1675). -/
def handle_mesh_answer (st : ServerState)
    (from_peer_id target_peer_id : Option String) (answer : Option Value) :
    HResult :=
  if ¬ (truthyO from_peer_id && truthyO target_peer_id && truthyV answer) then
    ⟨[.errorCode "INVALID_MESSAGE"
      "Missing required fields: from_peer_id, target_peer_id, answer"], [], st⟩
  else
    let f := from_peer_id.getD ""
    let t := target_peer_id.getD ""
    match alGet st.peerToRoom f with
    | none => ⟨[.errorCode "NOT_IN_ROOM" "Sender not in any room"], [], st⟩
    | some rid =>
      match alGet st.rooms rid with
      | none => ⟨[.errorCode "ROOM_NOT_FOUND" "Room not found"], [], st⟩
      | some room =>
        match alGet room.peers t with
        | none => ⟨[.errorCode "PEER_NOT_FOUND" "Target peer not found"], [], st⟩
        | some tp =>
          ⟨[], [(tp.websocket, .meshAnswerMsg f (answer.getD .vNull))],
            { st with totalMessages := st.totalMessages + 1 }⟩

/-- Translation of handle_ice_candidate (server.py lines 1678-1743):
a missing target is logged and suppressed (no error to the sender). -/
def handle_ice_candidate (st : ServerState)
    (from_peer_id target_peer_id : Option String) (candidate : Option Value) :
    HResult :=
  if ¬ (truthyO from_peer_id && truthyO target_peer_id && truthyV candidate) then
    ⟨[.errorCode "INVALID_MESSAGE"
      "Missing required fields: from_peer_id, target_peer_id, candidate"], [], st⟩
  else
    let f := from_peer_id.getD ""
    let t := target_peer_id.getD ""
    match alGet st.peerToRoom f with
    | none => ⟨[.errorCode "NOT_IN_ROOM" "Sender not in any room"], [], st⟩
    | some rid =>
      match alGet st.rooms rid with
      | none => ⟨[.errorCode "ROOM_NOT_FOUND" "Room not found"], [], st⟩
      | some room =>
        match alGet room.peers t with
        | none => ⟨[], [], st⟩
        | some tp =>
          ⟨[], [(tp.websocket, .iceCandidateMsg f (candidate.getD .vNull))],
            { st with totalMessages := st.totalMessages + 1 }⟩

/-- Translation of forward_message (server.py lines 1229-1262), used by the
legacy offer / answer / candidate relay: every failure is logged and
silently dropped, the raw envelope is forwarded verbatim on success. -/
def forward_message (st : ServerState) (sender_pid target_pid : String)
    (fwd : OutMsg) : HResult :=
  match alGet st.peerToRoom sender_pid with
  | none => ⟨[], [], st⟩
  | some rid =>
    match alGet st.rooms rid with
    | none => ⟨[], [], st⟩
    | some room =>
      match alGet room.peers target_pid with
      | none => ⟨[], [], st⟩
      | some tp =>
        ⟨[], [(tp.websocket, fwd)],
          { st with totalMessages := st.totalMessages + 1 }⟩

/-- One parsed inbound WebSocket message, classified by its type field as in
handle_client (server.py lines 1831-1893). -/
inductive ClientMsg where
  | register (m : RegisterMsg) : ClientMsg
  | discoverPeers (from_peer_id : Option String) (filters : Filters) : ClientMsg
  | updateMetadata (peer_id : Option String) (metadata : Option Metadata) : ClientMsg
  | peerMessage (from_peer_id to_peer_id : Option String)
      (payload : Option Value) : ClientMsg
  | meshConnect (from_peer_id target_peer_id : Option String)
      (offer : Option Value) : ClientMsg
  | meshAnswer (from_peer_id target_peer_id : Option String)
      (answer : Option Value) : ClientMsg
  | iceCandidate (from_peer_id target_peer_id : Option String)
      (candidate : Option Value) : ClientMsg
  | legacySignal (kind : String) (sender target : Option String) : ClientMsg
  | unknown (t : String) : ClientMsg
deriving DecidableEq, Repr

/-- The per-connection local state of handle_client: the peer_id variable
tracked for cleanup.  It is set from the raw register message (server.py
line 1841), whether or not the registration succeeded, and never from a
peer id the server synthesized. -/
structure ConnTrack where
  peerId : Option String := none
deriving DecidableEq, Repr

/-- Dispatch of one parsed message (the body of the read loop of
handle_client, server.py lines 1832-1893).  none models a Python exception
escaping a handler, which aborts the read loop.  The legacySignal arm keeps
the source shape: offer, answer and candidate all run forward_message after
the sender and target fields pass a presence check; any other string there
is impossible by construction of ClientMsg but falls to the unknown-type
error like the source default branch. -/
def handle_client_message (env : Env) (st : ServerState) (conn : ConnTrack)
    (ws : Nat) (msg : ClientMsg) : Option (HResult × ConnTrack) :=
  match msg with
  | .register m =>
    let r := handle_register env st ws m
    some (⟨r.1, [], r.2⟩, { peerId := m.peer_id })
  | .discoverPeers f fl =>
    (handle_discover_peers st f fl).map (fun r => (⟨r.1, [], r.2⟩, conn))
  | .updateMetadata p md =>
    let r := handle_update_metadata st p md
    some (⟨r.1, [], r.2⟩, conn)
  | .peerMessage f t pl =>
    (handle_peer_message st f t pl).map (fun r => (r, conn))
  | .meshConnect f t o => some (handle_mesh_connect st f t o, conn)
  | .meshAnswer f t a => some (handle_mesh_answer st f t a, conn)
  | .iceCandidate f t c => some (handle_ice_candidate st f t c, conn)
  | .legacySignal kind s t =>
    if kind = "offer" ∨ kind = "answer" ∨ kind = "candidate" then
      if truthyO s && truthyO t then
        some (forward_message st (s.getD "") (t.getD "")
          (.legacyForward kind (s.getD "") (t.getD "")), conn)
      else some (⟨[], [], st⟩, conn)
    else
      some (⟨[.errorCode "UNKNOWN_MESSAGE_TYPE" "Unknown message type"], [], st⟩, conn)
  | .unknown _ =>
    some (⟨[.errorCode "UNKNOWN_MESSAGE_TYPE" "Unknown message type"], [], st⟩, conn)

/-- The finally block of handle_client (server.py lines 1909-1912): on any
disconnect, cleanup runs only when the tracked peer_id variable is truthy. -/
def handle_disconnect (st : ServerState) (conn : ConnTrack) : ServerState :=
  if truthyO conn.peerId then cleanup_peer st (conn.peerId.getD "") else st

/-!
Specification-side predicates.  The following definitions are written from
the wording of the specification and of the claims, not from the source;
they are compared against the translated code above.
-/

/-- Natural comparison on scalar values used by the specification-side
filter predicates: less-or-equal between two ints or between two strings. -/
def specLe : Value → Value → Bool
  | .vInt a, .vInt b => a ≤ b
  | .vStr a, .vStr b => strLeB a.data b.data
  | _, _ => false

/-- Satisfaction of one properties filter clause as the claim words it:
the peer satisfies every present gte / lte / eq operator and scalar
equality, and a missing property counts as non-matching throughout. -/
def claimPropertyOk (props : List (String × Value)) (key : String) :
    FilterVal → Bool
  | .scalar v =>
    match alGet props key with
    | some pv => pv = v
    | none => false
  | .ops g l e =>
    (match g with
     | some gv =>
       match alGet props key with
       | some pv => specLe gv pv
       | none => false
     | none => true) &&
    (match l with
     | some lv =>
       match alGet props key with
       | some pv => specLe pv lv
       | none => false
     | none => true) &&
    (match e with
     | some ev =>
       match alGet props key with
       | some pv => pv = ev
       | none => false
     | none => true)

/-- The filter-satisfaction predicate exactly as the claim states it: role
equal, tag sets intersecting, and every properties clause satisfied with a
missing property counting as non-matching; an absent clause constrains
nothing. -/
def claimMatches (p : Peer) (f : Filters) : Bool :=
  (match f.role with
   | some r => p.role = r
   | none => true) &&
  (match f.tags with
   | some ts => (p.metadata.tags.getD []).any (fun t => ts.contains t)
   | none => true) &&
  (match f.properties with
   | some ps => ps.all (fun e => claimPropertyOk (p.metadata.properties.getD []) e.1 e.2)
   | none => true)

/-- Amended satisfaction of a gte operator: the conflated peer value (with
missing read as null) must be non-null and at least the bound. -/
def amendedGte (pv : Value) : Option Value → Bool
  | some gv => pv ≠ Value.vNull && specLe gv pv
  | none => true

/-- Amended satisfaction of an lte operator. -/
def amendedLte (pv : Value) : Option Value → Bool
  | some lv => pv ≠ Value.vNull && specLe pv lv
  | none => true

/-- Amended satisfaction of an eq operator: plain equality on the conflated
value, so null matches a missing property. -/
def amendedEq (pv : Value) : Option Value → Bool
  | some ev => pv = ev
  | none => true

/-- Satisfaction of one properties clause under the amended reading: as the
claim, except that a missing property and a stored null are identified, so
an equality comparison (scalar or eq operator) against null matches a
missing property, while gte / lte still treat missing or null as
non-matching. -/
def amendedPropertyOk (props : List (String × Value)) (key : String) :
    FilterVal → Bool
  | .scalar v => ((alGet props key).getD Value.vNull) = v
  | .ops g l e =>
    let pv := (alGet props key).getD Value.vNull
    amendedGte pv g && amendedLte pv l && amendedEq pv e

/-- The amended filter-satisfaction predicate of C9. -/
def amendedMatches (p : Peer) (f : Filters) : Bool :=
  (match f.role with
   | some r => p.role = r
   | none => true) &&
  (match f.tags with
   | some ts => (p.metadata.tags.getD []).any (fun t => ts.contains t)
   | none => true) &&
  (match f.properties with
   | some ps => ps.all (fun e => amendedPropertyOk (p.metadata.properties.getD []) e.1 e.2)
   | none => true)

/-!
Helpers for quantifying over the non-register message kinds of the
dispatcher.
-/

/-- The message field each non-register handler uses to identify the
sender: from_peer_id for discovery, routing and mesh relay, peer_id for
metadata update, sender for the legacy relay. -/
def senderField : ClientMsg → Option String
  | .discoverPeers f _ => f
  | .updateMetadata p _ => p
  | .peerMessage f _ _ => f
  | .meshConnect f _ _ => f
  | .meshAnswer f _ _ => f
  | .iceCandidate f _ _ => f
  | .legacySignal _ s _ => s
  | .register _ => none
  | .unknown _ => none

/-- The message kinds the pre-registration claim quantifies over: every
dispatched kind except register (for legacySignal, the three legacy type
strings). -/
def nonRegisterKind : ClientMsg → Bool
  | .discoverPeers _ _ => true
  | .updateMetadata _ _ => true
  | .peerMessage _ _ _ => true
  | .meshConnect _ _ _ => true
  | .meshAnswer _ _ _ => true
  | .iceCandidate _ _ _ => true
  | .legacySignal kind _ _ => kind = "offer" || kind = "answer" || kind = "candidate"
  | .register _ => false
  | .unknown _ => false

/-- Truthiness of the required non-sender fields of each message kind, so
that the handlers get past their presence checks. -/
def otherFieldsPresent : ClientMsg → Bool
  | .discoverPeers _ _ => true
  | .updateMetadata _ md => (match md with
                             | some m => m.truthy
                             | none => false)
  | .peerMessage _ t pl => truthyO t && truthyV pl
  | .meshConnect _ t o => truthyO t && truthyV o
  | .meshAnswer _ t a => truthyO t && truthyV a
  | .iceCandidate _ t c => truthyO t && truthyV c
  | .legacySignal _ _ t => truthyO t
  | .register _ => true
  | .unknown _ => true

/-- The legacy relay kinds, which reply with no error envelope at all when
the sender is unknown. -/
def isLegacy : ClientMsg → Bool
  | .legacySignal _ _ _ => true
  | _ => false

/-!
Concrete scenario inputs used by the counterexample and code-divergence
theorems below.
-/

namespace C1ex

/-- Persistent tables: room R with OTP secret SECRET, one worker API key
for R, one user u2 with membership in R and a valid session JWT J. -/
def env : Env :=
  { worker_tokens := [("slp_k1", { room_id := "R", user_id := "u1", worker_name := "w" })]
    rooms_table := [("R", { token := some "pw", otp_secret := some "SECRET" })]
    room_memberships := [("u2", "R")]
    jwt_claims := [("J", { sub := "u2", username := some "bob" })]
    now := 5
    fresh_hex := "abcd" }

/-- A worker registration with the API key. -/
def regWorker : RegisterMsg :=
  { peer_id := some "w1", role := "worker", api_key := some "slp_k1" }

/-- A client registration with the session JWT: no worker credential. -/
def regClient : RegisterMsg :=
  { peer_id := some "c1", role := "client", jwt := some "J", room_id := some "R" }

/-- State after the worker registered. -/
def afterWorker : ServerState := (handle_register env {} 1 regWorker).2

/-- The reply sent to the client registration. -/
def clientReply : List OutMsg := (handle_register env afterWorker 2 regClient).1

end C1ex

namespace C2ex

/-- Persistent tables for a JWT-only room. -/
def env : Env :=
  { rooms_table := [("R", {})]
    room_memberships := [("u2", "R")]
    jwt_claims := [("J", { sub := "u2" })] }

/-- The registration message, sent twice with the same peer id p from two
different sockets. -/
def reg : RegisterMsg :=
  { peer_id := some "p", jwt := some "J", room_id := some "R" }

/-- State after the first registration (socket 1). -/
def afterFirst : ServerState := (handle_register env {} 1 reg).2

/-- Reply and state of the second registration of the same peer id
(socket 2). -/
def second : List OutMsg × ServerState := handle_register env afterFirst 2 reg

end C2ex

namespace C3ex

/-- A state with one registered peer p2. -/
def stBefore : ServerState :=
  { rooms := [("R", { peers :=
      [("p2", { websocket := 2, role := "peer", metadata := {}, connected_at := 0 })] })]
    peerToRoom := [("p2", "R")] }

/-- An update_metadata message naming p2, sent on a connection that has
never registered (its tracked peer id is none). -/
def msg : ClientMsg :=
  .updateMetadata (some "p2") (some { properties := some [("x", .vInt 1)] })

/-- The dispatch result for the unregistered connection. -/
def result : Option (HResult × ConnTrack) :=
  handle_client_message {} stBefore {} 9 msg

end C3ex

namespace C4ex

/-- Peer p1, the caller. -/
def p1 : Peer := { websocket := 1, role := "client", metadata := {}, connected_at := 0 }

/-- Peer p2, the target, with a status property. -/
def p2 : Peer :=
  { websocket := 2, role := "worker",
    metadata := { properties := some [("status", .vStr "available")] },
    connected_at := 0 }

/-- The live room holding both peers. -/
def room : RoomLive := { peers := [("p1", p1), ("p2", p2)] }

/-- A state with both peers registered in room R. -/
def st : ServerState :=
  { rooms := [("R", room)]
    peerToRoom := [("p1", "R"), ("p2", "R")] }

/-- The update p1 sends about p2. -/
def upd : Metadata := { properties := some [("status", .vStr "busy")] }

/-- Dispatch of the update on the connection registered as p1 (socket 1),
naming p2. -/
def result : Option (HResult × ConnTrack) :=
  handle_client_message {} st { peerId := some "p1" } 1
    (.updateMetadata (some "p2") (some upd))

end C4ex

namespace C5ex

/-- Persistent tables: room R and a worker API key for it. -/
def env : Env :=
  { worker_tokens := [("slp_k1", { room_id := "R", user_id := "u1", worker_name := "w" })]
    rooms_table := [("R", { otp_secret := some "S" })]
    fresh_hex := "abcd" }

/-- A worker registration that supplies no peer_id, so the server
synthesizes worker-w-abcd. -/
def msg : ClientMsg := .register { role := "worker", api_key := some "slp_k1" }

/-- The dispatch result on a fresh connection. -/
def step : Option (HResult × ConnTrack) := handle_client_message env {} {} 7 msg

end C5ex

namespace C6ex

/-- Existing metadata with tags and a property. -/
def M : Metadata := { tags := some ["a"], properties := some [("x", .vInt 1)] }

/-- An update carrying only properties: the tags key is omitted. -/
def U : Metadata := { properties := some [("y", .vInt 2)] }

/-- An update carrying both keys, used by the witness of the amended merge
law. -/
def U2 : Metadata := { tags := some ["b"], properties := some [("x", .vInt 7)] }

end C6ex

namespace C8ex

/-- Persistent tables for a JWT-authenticated room R. -/
def env : Env :=
  { rooms_table := [("R", {})]
    room_memberships := [("u", "R")]
    jwt_claims := [("J", { sub := "u" })] }

/-- The current admin peer a0 of room R. -/
def peerA : Peer := { websocket := 1, role := "worker", metadata := {}, connected_at := 0 }

/-- A state where a0 is registered in R and holds the admin designation. -/
def st : ServerState :=
  { rooms := [("R", { peers := [("a0", peerA)] })]
    peerToRoom := [("a0", "R")]
    roomAdmins := [("R", "a0")] }

/-- A register message for peer q with the admin flag. -/
def m : RegisterMsg :=
  { peer_id := some "q", jwt := some "J", room_id := some "R", is_admin := true }

/-- Persistent tables for the ghost-admin scenario: room R and a worker
API key for it. -/
def envW : Env :=
  { worker_tokens := [("slp_k2", { room_id := "R", user_id := "u1", worker_name := "w" })]
    rooms_table := [("R", {})]
    fresh_hex := "abcd" }

/-- An admin registration via API key that supplies no peer_id, so the
server synthesizes worker-w-abcd and designates it admin. -/
def mW1 : ClientMsg :=
  .register { role := "worker", api_key := some "slp_k2", is_admin := true }

/-- A later admin registration by a second worker w2. -/
def mW2 : RegisterMsg :=
  { peer_id := some "w2", role := "worker", api_key := some "slp_k2",
    is_admin := true }

/-- The dispatch result of the synthesized-id admin registration on a
fresh connection. -/
def ghost : Option (HResult × ConnTrack) :=
  handle_client_message envW {} {} 1 mW1

end C8ex

namespace C9ex

/-- The calling client. -/
def caller : Peer := { websocket := 1, role := "client", metadata := {}, connected_at := 0 }

/-- A worker with no properties at all. -/
def w : Peer := { websocket := 2, role := "worker", metadata := {}, connected_at := 0 }

/-- The live room holding both peers. -/
def room : RoomLive := { peers := [("c", caller), ("w", w)] }

/-- A state with both registered in room R. -/
def st : ServerState :=
  { rooms := [("R", room)]
    peerToRoom := [("c", "R"), ("w", "R")] }

/-- A filter demanding property k equal to null. -/
def fl : Filters := { properties := some [("k", .scalar .vNull)] }

/-- A role filter, used by the witness of the amended characterization. -/
def fl2 : Filters := { role := some "worker" }

end C9ex

/-!
Theorems.  Helper lemmas about the dictionary model come first, then one
theorem (with witness or counterexample where required) per claim.
-/

theorem alGet_nil {α : Type} (k : String) : alGet ([] : List (String × α)) k = none := rfl

theorem alGet_cons {α : Type} (e : String × α) (l : List (String × α)) (k : String) :
    alGet (e :: l) k = if e.1 = k then some e.2 else alGet l k := rfl

theorem alGet_alInsert_self {α : Type} (l : List (String × α)) (k : String) (v : α) :
    alGet (alInsert l k v) k = some v := by
  induction l with
  | nil => simp [alInsert, alGet]
  | cons e rest ih =>
    by_cases h : e.1 = k
    · simp [alInsert, h, alGet]
    · simp [alInsert, h, alGet, ih]

theorem alGet_alInsert_ne {α : Type} (l : List (String × α)) (k k2 : String) (v : α)
    (h : k ≠ k2) : alGet (alInsert l k v) k2 = alGet l k2 := by
  induction l with
  | nil => simp [alInsert, alGet, h]
  | cons e rest ih =>
    by_cases he : e.1 = k
    · simp [alInsert, he, alGet, h]
    · simp [alInsert, he, alGet, ih]

theorem alErase_cons {α : Type} (e : String × α) (l : List (String × α)) (k : String) :
    alErase (e :: l) k = if e.1 = k then alErase l k else e :: alErase l k := by
  by_cases h : e.1 = k <;> simp [alErase, List.filter, h]

theorem alGet_alErase_self {α : Type} (l : List (String × α)) (k : String) :
    alGet (alErase l k) k = none := by
  induction l with
  | nil => rfl
  | cons e rest ih =>
    rw [alErase_cons]
    by_cases h : e.1 = k
    · simp [h, ih]
    · simp [alGet_cons, h, ih]

theorem alGet_alErase_ne {α : Type} (l : List (String × α)) (k k2 : String)
    (h : k ≠ k2) : alGet (alErase l k) k2 = alGet l k2 := by
  induction l with
  | nil => rfl
  | cons e rest ih =>
    rw [alErase_cons]
    by_cases he : e.1 = k
    · simp [he, alGet_cons, h, ih]
    · simp [he, alGet_cons, ih]

theorem alGet_append {α : Type} (l1 l2 : List (String × α)) (k : String) :
    alGet (l1 ++ l2) k = (alGet l1 k).orElse (fun _ => alGet l2 k) := by
  induction l1 with
  | nil => simp [alGet]
  | cons e rest ih =>
    by_cases h : e.1 = k
    · simp [alGet, h]
    · simp [alGet, h, ih]

theorem alGet_mapNew {α : Type} (o n : List (String × α)) (k : String) :
    alGet (o.map (fun e => (e.1, (alGet n e.1).getD e.2))) k
      = (alGet o k).map (fun v => (alGet n k).getD v) := by
  induction o with
  | nil => simp [alGet]
  | cons e rest ih =>
    by_cases h : e.1 = k
    · simp [alGet, h]
    · simp [alGet, h, ih]

theorem alGet_filterNew {α : Type} (o n : List (String × α)) (k : String) :
    alGet (n.filter (fun e => (alGet o e.1).isNone)) k
      = if (alGet o k).isSome then none else alGet n k := by
  induction n with
  | nil => simp [alGet]
  | cons e rest ih =>
    by_cases h : e.1 = k
    · subst h
      by_cases ho : (alGet o e.1).isSome
      · simp [List.filter, Option.isNone_iff_eq_none, Option.isSome_iff_exists] at ho ⊢
        obtain ⟨v, hv⟩ := ho
        simp [hv, ih, alGet]
      · simp only [Option.not_isSome_iff_eq_none] at ho
        simp [List.filter, ho, alGet, ih]
    · by_cases ho : (alGet o e.1) = none
      · simp [List.filter, ho, alGet, h, ih]
      · obtain ⟨v, hv⟩ := Option.ne_none_iff_exists.mp ho
        simp [List.filter, ← hv, alGet, h, ih]

theorem alGet_dictMerge {α : Type} (o n : List (String × α)) (k : String) :
    alGet (dictMerge o n) k = (alGet n k).orElse (fun _ => alGet o k) := by
  unfold dictMerge
  rw [alGet_append, alGet_mapNew, alGet_filterNew]
  cases ho : alGet o k with
  | none => cases hn : alGet n k <;> simp [Option.orElse]
  | some v => cases hn : alGet n k <;> simp [Option.orElse]

/-- C1: refuted on the code.  The worker registration stores the room OTP
secret inside the worker metadata (server.py line 1044), and a later
registration by a client holding only a session JWT (no worker credential)
receives that metadata verbatim in the peer_metadata map of its
registered_auth reply, so the reply contains the room OTP secret SECRET. -/
theorem otp_secret_leaked_to_jwt_client :
    C1ex.clientReply =
      [.registeredAuth "R" none "c1" none ["w1"]
        [("w1", { tags := none, properties := none,
                  otpSecret := some "SECRET", workerName := some "w" })] none] ∧
    (alGet C1ex.env.rooms_table "R").map RoomData.otp_secret = some (some "SECRET") ∧
    C1ex.regClient.api_key = none ∧ C1ex.regClient.id_token = none := by
  refine ⟨?_, rfl, rfl, rfl⟩
  decide

/-- C2: refuted on the code.  A second register with the same peer id p in
room R succeeds with a registered_auth reply (no conflict error) and
silently replaces the earlier record: the stored websocket changes from 1
to 2.  At most one record per peer id does hold (the registry is a dict),
but the mandated conflict rejection does not happen. -/
theorem duplicate_register_silent_overwrite :
    C2ex.second.1 = [.registeredAuth "R" none "p" none [] [] none] ∧
    (alGet C2ex.afterFirst.rooms "R").map RoomLive.peers =
      some [("p", { websocket := 1, role := "peer", metadata := {}, connected_at := 0 })] ∧
    (alGet C2ex.second.2.rooms "R").map RoomLive.peers =
      some [("p", { websocket := 2, role := "peer", metadata := {}, connected_at := 0 })] := by
  exact ⟨rfl, rfl, rfl⟩

/-- C3: counterexample.  A connection that has never registered (tracked
peer id none) sends update_metadata naming the registered peer p2: the
dispatcher runs the handler, which answers metadata_updated (not an
unauthenticated error) and mutates the registry entry of p2. -/
theorem unregistered_connection_mutates_registry :
    C3ex.result.map (fun r => r.1.toSender) =
      some [.metadataUpdated "p2" { properties := some [("x", .vInt 1)] }] ∧
    C3ex.result.map (fun r =>
        ((alGet r.1.state.rooms "R").bind (fun rm => alGet rm.peers "p2")).map Peer.metadata) =
      some (some { properties := some [("x", .vInt 1)] }) ∧
    ((alGet C3ex.stBefore.rooms "R").bind (fun rm => alGet rm.peers "p2")).map Peer.metadata =
      some ({} : Metadata) := by
  exact ⟨rfl, rfl, rfl⟩

/-- C4: counterexample.  The connection registered as p1 (socket 1) sends
update_metadata naming the other registered peer p2: the handler runs the
merge on p2 and confirms with metadata_updated, so the metadata of p2 does
not stay unchanged.  The handler never consults which connection sent the
message. -/
theorem update_metadata_changes_other_peer :
    C4ex.result.map (fun r => r.1.toSender) =
      some [.metadataUpdated "p2" { properties := some [("status", .vStr "busy")] }] ∧
    C4ex.result.map (fun r =>
        ((alGet r.1.state.rooms "R").bind (fun rm => alGet rm.peers "p2")).map Peer.metadata) =
      some (some { properties := some [("status", .vStr "busy")] }) ∧
    C4ex.p2.metadata ≠ { properties := some [("status", .vStr "busy")] } := by
  refine ⟨rfl, rfl, ?_⟩
  decide

/-- C5: refuted on the code.  A worker registers through its API key
without supplying a peer_id; the server synthesizes worker-w-abcd and
stores the peer, but handle_client tracks only the raw peer_id field of
the message (none), so the disconnect cleanup is skipped entirely: after
handle_disconnect the peer is still registered in room R. -/
theorem synthesized_worker_peer_never_cleaned :
    C5ex.step.map (fun r => r.2) = some { peerId := none } ∧
    C5ex.step.map (fun r =>
        (alGet (handle_disconnect r.1.state r.2).rooms "R").map
          (fun rm => rm.peers.map Prod.fst)) =
      some (some ["worker-w-abcd"]) ∧
    C5ex.step.map (fun r => handle_disconnect r.1.state r.2) =
      C5ex.step.map (fun r => r.1.state) := by
  refine ⟨rfl, by decide, rfl⟩

/-- C6: counterexample.  With existing tags [a] and an update that omits
the tags key, the post-merge metadata has no tags at all, although the
claim requires the union, which contains a. -/
theorem merge_drops_tags_when_update_omits_them :
    "a" ∈ C6ex.M.tags.getD [] ∧
    (merge_metadata C6ex.M C6ex.U).tags = none ∧
    "a" ∉ (merge_metadata C6ex.M C6ex.U).tags.getD [] := by
  decide

/-- C9: counterexample.  The peer w has no property k, and the claim makes
a missing property non-matching for scalar equality; but the filter value
null compares equal to the Python None that dict.get returns for the
missing key, so discovery returns w anyway. -/
theorem missing_property_matches_null_equality :
    handle_discover_peers C9ex.st (some "c") C9ex.fl =
      some ([.peerList "c" [⟨"w", "worker", {}, 0⟩] 1], C9ex.st) ∧
    claimMatches C9ex.w C9ex.fl = false ∧
    alGet (C9ex.w.metadata.properties.getD []) "k" = none := by
  exact ⟨rfl, rfl, rfl⟩

/-- C7: confirmed.  A peer_message whose target peer is registered in a
different room than the sender is answered with a PEER_NOT_IN_ROOM error,
the registry is untouched and no frame is written to any other socket, in
particular not to the target. -/
theorem peer_message_cross_room_rejected (st : ServerState) (f t : String)
    (pl : Value) (r1 r2 : String)
    (hf : f ≠ "") (ht : t ≠ "") (hpl : pl.truthy = true)
    (h1 : alGet st.peerToRoom f = some r1)
    (h2 : alGet st.peerToRoom t = some r2)
    (hne : r2 ≠ r1) :
    handle_peer_message st (some f) (some t) (some pl) =
      some ⟨[.errorCode "PEER_NOT_IN_ROOM" "Target peer not in same room"], [], st⟩ := by
  unfold handle_peer_message
  simp [truthyO, truthyV, hf, ht, hpl, h1, h2, hne]

/-- Witness for C7: two peers a and b registered in rooms R1 and R2. -/
theorem peer_message_cross_room_rejected_witness :
    handle_peer_message { peerToRoom := [("a", "R1"), ("b", "R2")] }
        (some "a") (some "b") (some (.vInt 1)) =
      some ⟨[.errorCode "PEER_NOT_IN_ROOM" "Target peer not in same room"], [],
        { peerToRoom := [("a", "R1"), ("b", "R2")] }⟩ :=
  peer_message_cross_room_rejected _ "a" "b" (.vInt 1) "R1" "R2"
    (by decide) (by decide) (by decide) (by decide) (by decide) (by decide)

/-- C4 amended: the handler performs no caller verification at all (its
inputs do not even include the sending connection): an update_metadata
naming any registered peer merges the update into that peer and confirms
with metadata_updated. -/
theorem update_metadata_no_caller_check (st : ServerState) (pid : String)
    (md : Metadata) (rid : String) (room : RoomLive) (pd : Peer)
    (hp : pid ≠ "") (hmd : md.truthy = true)
    (h1 : alGet st.peerToRoom pid = some rid)
    (h2 : alGet st.rooms rid = some room)
    (h3 : alGet room.peers pid = some pd) :
    (handle_update_metadata st (some pid) (some md)).1 =
      [.metadataUpdated pid (merge_metadata pd.metadata md)] ∧
    ((alGet (handle_update_metadata st (some pid) (some md)).2.rooms rid).bind
        (fun rm => alGet rm.peers pid)) =
      some { pd with metadata := merge_metadata pd.metadata md } := by
  unfold handle_update_metadata
  simp [truthyO, hp, hmd, h1, h2, h3, alGet_alInsert_self]

/-- Witness for the amended C4: the connection of p1 updates p2. -/
theorem update_metadata_no_caller_check_witness :
    (handle_update_metadata C4ex.st (some "p2") (some C4ex.upd)).1 =
      [.metadataUpdated "p2" (merge_metadata C4ex.p2.metadata C4ex.upd)] ∧
    ((alGet (handle_update_metadata C4ex.st (some "p2") (some C4ex.upd)).2.rooms "R").bind
        (fun rm => alGet rm.peers "p2")) =
      some { C4ex.p2 with metadata := merge_metadata C4ex.p2.metadata C4ex.upd } :=
  update_metadata_no_caller_check C4ex.st "p2" C4ex.upd "R" C4ex.room C4ex.p2
    (by decide) (by decide) (by decide) (by decide) (by decide)

/-- C6 amended: when the update carries the tags key the post-merge tags
are the union, when it carries the properties key the post-merge properties
follow the update-wins lookup law; when either key is omitted from the
update, the post-merge document omits it as well and the old entries are
dropped, because the update replaces the document wholesale. -/
theorem metadata_merge_law_amended (M U : Metadata) :
    (∀ nts, U.tags = some nts →
      ∀ t, (t ∈ (merge_metadata M U).tags.getD [] ↔
        t ∈ M.tags.getD [] ∨ t ∈ nts)) ∧
    (U.tags = none → (merge_metadata M U).tags = none) ∧
    (∀ nps, U.properties = some nps →
      ∀ k, alGet ((merge_metadata M U).properties.getD []) k =
        (alGet nps k).orElse (fun _ => alGet (M.properties.getD []) k)) ∧
    (U.properties = none → (merge_metadata M U).properties = none) := by
  refine ⟨?_, ?_, ?_, ?_⟩
  · intro nts hts t
    cases hps : U.properties <;>
      simp [merge_metadata, hts, hps, List.mem_dedup, List.mem_append]
  · intro hts
    cases hps : U.properties <;> simp [merge_metadata, hts, hps]
  · intro nps hps k
    cases hts : U.tags <;>
      simp [merge_metadata, hts, hps, alGet_dictMerge]
  · intro hps
    cases hts : U.tags <;> simp [merge_metadata, hts, hps]

/-- Witness for the amended C6: existing tags [a] and property x = 1,
update with tags [b] and property x = 7. -/
theorem metadata_merge_law_amended_witness :
    ("b" ∈ (merge_metadata C6ex.M C6ex.U2).tags.getD [] ↔
      "b" ∈ C6ex.M.tags.getD [] ∨ "b" ∈ ["b"]) ∧
    alGet ((merge_metadata C6ex.M C6ex.U2).properties.getD []) "x" =
      (alGet [("x", Value.vInt 7)] "x").orElse
        (fun _ => alGet (C6ex.M.properties.getD []) "x") :=
  ⟨(metadata_merge_law_amended C6ex.M C6ex.U2).1 ["b"] rfl "b",
   (metadata_merge_law_amended C6ex.M C6ex.U2).2.2.1 [("x", Value.vInt 7)] rfl "x"⟩

theorem truthyO_some_eq_true {s : String} (h : s ≠ "") :
    truthyO (some s) = true := by simp [truthyO, h]

/-- C3 amended: a non-register message whose sender-identifying field
names a peer id registered in no room leaves the state unchanged, writes
to no other socket and keeps the connection tracking unchanged; the
non-legacy kinds reply with a NOT_IN_ROOM error envelope (never an
unauthenticated one), while the legacy relay kinds reply with nothing at
all.  There is no per-connection gate: the conclusion holds for every
connection state, registered or not, and depends only on the peer id named
in the message. -/
theorem unregistered_sender_rejected_not_in_room (env : Env)
    (st : ServerState) (conn : ConnTrack) (ws : Nat) (msg : ClientMsg)
    (s : String)
    (hk : nonRegisterKind msg = true)
    (hs : senderField msg = some s)
    (hts : s ≠ "")
    (hof : otherFieldsPresent msg = true)
    (hnr : alGet st.peerToRoom s = none) :
    ∃ r, handle_client_message env st conn ws msg = some (r, conn) ∧
      r.state = st ∧ r.writes = [] ∧
      (isLegacy msg = false →
        ∃ txt, r.toSender = [.errorCode "NOT_IN_ROOM" txt]) ∧
      (isLegacy msg = true → r.toSender = []) := by
  cases msg with
  | register m => simp [nonRegisterKind] at hk
  | unknown t => simp [nonRegisterKind] at hk
  | discoverPeers f fl =>
    have hf : f = some s := by simpa [senderField] using hs
    subst hf
    refine ⟨⟨[.errorCode "NOT_IN_ROOM" "Peer not registered in any room"], [], st⟩,
      ?_, rfl, rfl, ?_, ?_⟩
    · simp [handle_client_message, handle_discover_peers, hnr]
    · intro _
      exact ⟨"Peer not registered in any room", rfl⟩
    · intro h
      simp [isLegacy] at h
  | updateMetadata p md =>
    have hf : p = some s := by simpa [senderField] using hs
    subst hf
    refine ⟨⟨[.errorCode "NOT_IN_ROOM" "Peer not in any room"], [], st⟩,
      ?_, rfl, rfl, ?_, ?_⟩
    · simp only [handle_client_message, handle_update_metadata, truthyO]
      simp [otherFieldsPresent] at hof
      simp [hts, hof, hnr]
    · intro _
      exact ⟨"Peer not in any room", rfl⟩
    · intro h
      simp [isLegacy] at h
  | peerMessage f t pl =>
    have hf : f = some s := by simpa [senderField] using hs
    subst hf
    simp [otherFieldsPresent] at hof
    refine ⟨⟨[.errorCode "NOT_IN_ROOM" "Sender not in any room"], [], st⟩,
      ?_, rfl, rfl, ?_, ?_⟩
    · simp [handle_client_message, handle_peer_message, truthyO_some_eq_true hts,
        hof.1, hof.2, hnr]
    · intro _
      exact ⟨"Sender not in any room", rfl⟩
    · intro h
      simp [isLegacy] at h
  | meshConnect f t o =>
    have hf : f = some s := by simpa [senderField] using hs
    subst hf
    simp [otherFieldsPresent] at hof
    refine ⟨⟨[.errorCode "NOT_IN_ROOM" "Sender not in any room"], [], st⟩,
      ?_, rfl, rfl, ?_, ?_⟩
    · simp [handle_client_message, handle_mesh_connect, truthyO_some_eq_true hts,
        hof.1, hof.2, hnr]
    · intro _
      exact ⟨"Sender not in any room", rfl⟩
    · intro h
      simp [isLegacy] at h
  | meshAnswer f t a =>
    have hf : f = some s := by simpa [senderField] using hs
    subst hf
    simp [otherFieldsPresent] at hof
    refine ⟨⟨[.errorCode "NOT_IN_ROOM" "Sender not in any room"], [], st⟩,
      ?_, rfl, rfl, ?_, ?_⟩
    · simp [handle_client_message, handle_mesh_answer, truthyO_some_eq_true hts,
        hof.1, hof.2, hnr]
    · intro _
      exact ⟨"Sender not in any room", rfl⟩
    · intro h
      simp [isLegacy] at h
  | iceCandidate f t c =>
    have hf : f = some s := by simpa [senderField] using hs
    subst hf
    simp [otherFieldsPresent] at hof
    refine ⟨⟨[.errorCode "NOT_IN_ROOM" "Sender not in any room"], [], st⟩,
      ?_, rfl, rfl, ?_, ?_⟩
    · simp [handle_client_message, handle_ice_candidate, truthyO_some_eq_true hts,
        hof.1, hof.2, hnr]
    · intro _
      exact ⟨"Sender not in any room", rfl⟩
    · intro h
      simp [isLegacy] at h
  | legacySignal kind sd tg =>
    have hf : sd = some s := by simpa [senderField] using hs
    subst hf
    simp [otherFieldsPresent] at hof
    simp [nonRegisterKind] at hk
    refine ⟨⟨[], [], st⟩, ?_, rfl, rfl, ?_, ?_⟩
    · have hkind : kind = "offer" ∨ kind = "answer" ∨ kind = "candidate" := by
        rcases hk with (h | h) | h
        · exact Or.inl h
        · exact Or.inr (Or.inl h)
        · exact Or.inr (Or.inr h)
      simp [handle_client_message, hkind, truthyO_some_eq_true hts, hof,
        forward_message, hnr]
    · intro h
      simp [isLegacy] at h
    · intro _
      rfl

/-- Witness for the amended C3: a peer_message from the unregistered peer
id x on a fresh server state. -/
theorem unregistered_sender_rejected_not_in_room_witness :
    ∃ r, handle_client_message {} {} {} 0
        (.peerMessage (some "x") (some "y") (some (.vInt 1))) = some (r, {}) ∧
      r.state = {} ∧ r.writes = [] ∧
      (isLegacy (.peerMessage (some "x") (some "y") (some (.vInt 1))) = false →
        ∃ txt, r.toSender = [.errorCode "NOT_IN_ROOM" txt]) ∧
      (isLegacy (.peerMessage (some "x") (some "y") (some (.vInt 1))) = true →
        r.toSender = []) :=
  unregistered_sender_rejected_not_in_room {} {} {} 0
    (.peerMessage (some "x") (some "y") (some (.vInt 1))) "x"
    (by decide) (by decide) (by decide) (by decide) (by decide)

/-- C8: counterexample.  An admin registered via API key with no
client-supplied peer_id gets the synthesized id worker-w-abcd, but the
connection tracks only the raw peer_id field (none), so the disconnect
skips cleanup entirely: the admin designation survives the transport
closure, and the next register with is_admin receives admin_conflict
against the disconnected peer instead of becoming admin, refuting the
claim that the designation is cleared after the admin disconnects. -/
theorem ghost_admin_blocks_next_admin :
    C8ex.ghost.map (fun r => r.2) = some { peerId := none } ∧
    C8ex.ghost.map (fun r => alGet r.1.state.roomAdmins "R") =
      some (some "worker-w-abcd") ∧
    C8ex.ghost.map (fun r => handle_disconnect r.1.state r.2) =
      C8ex.ghost.map (fun r => r.1.state) ∧
    C8ex.ghost.map (fun r =>
        (handle_register C8ex.envW (handle_disconnect r.1.state r.2) 2
          C8ex.mW2).1.head?) =
      some (some (.adminConflict "R" "worker-w-abcd")) ∧
    C8ex.ghost.map (fun r =>
        alGet (handle_register C8ex.envW (handle_disconnect r.1.state r.2) 2
          C8ex.mW2).2.roomAdmins "R") =
      some (some "worker-w-abcd") := by
  refine ⟨rfl, rfl, rfl, by decide, by decide⟩

/-- C8 amended: five parts.  (i) The admin designation is one optional
peer id per room, so at most one peer holds it at any instant.  (ii) A
register (JWT path shown) with is_admin while a different admin a exists
replies admin_conflict followed by registered_auth reporting a as admin,
leaves a designated, and still registers the new peer q.  (iii) When the
disconnecting connection tracked the admin peer id (a client-supplied,
truthy peer_id), the disconnect clears the designation.  (iv) When the
connection tracked no truthy peer id, as happens for a server-synthesized
one, the disconnect changes nothing, so a stale designation persists and
blocks later is_admin registers through part (ii).  (v) A register with
is_admin while no admin exists makes the registering peer the admin, with
no conflict message. -/
theorem admin_conflict_and_tracked_clear :
    (∀ (st : ServerState) (rid a b : String),
      alGet st.roomAdmins rid = some a → alGet st.roomAdmins rid = some b →
        a = b) ∧
    (∀ (env : Env) (st : ServerState) (ws : Nat) (m : RegisterMsg)
        (j rid q a : String) (cl : JwtClaims) (rd : RoomData),
      m.api_key = none → m.jwt = some j → j ≠ "" →
      alGet env.jwt_claims j = some cl →
      m.room_id = some rid → rid ≠ "" →
      (cl.sub, rid) ∈ env.room_memberships →
      alGet env.rooms_table rid = some rd → rd.expires_at = none →
      m.peer_id = some q → q ≠ "" →
      m.is_admin = true →
      alGet st.roomAdmins rid = some a → a ≠ "" → a ≠ q →
      (∃ pl pm otp,
        (handle_register env st ws m).1 =
          [.adminConflict rid a,
           .registeredAuth rid m.token q (some a) pl pm otp]) ∧
      alGet (handle_register env st ws m).2.roomAdmins rid = some a ∧
      (∃ room2, alGet (handle_register env st ws m).2.rooms rid = some room2 ∧
        (alGet room2.peers q).isSome = true)) ∧
    (∀ (st : ServerState) (conn : ConnTrack) (a rid : String),
      conn.peerId = some a → a ≠ "" →
      alGet st.peerToRoom a = some rid →
      alGet st.roomAdmins rid = some a →
      alGet (handle_disconnect st conn).roomAdmins rid = none) ∧
    (∀ (st : ServerState) (conn : ConnTrack),
      truthyO conn.peerId = false → handle_disconnect st conn = st) ∧
    (∀ (env : Env) (st : ServerState) (ws : Nat) (m : RegisterMsg)
        (j rid q : String) (cl : JwtClaims) (rd : RoomData),
      m.api_key = none → m.jwt = some j → j ≠ "" →
      alGet env.jwt_claims j = some cl →
      m.room_id = some rid → rid ≠ "" →
      (cl.sub, rid) ∈ env.room_memberships →
      alGet env.rooms_table rid = some rd → rd.expires_at = none →
      m.peer_id = some q → q ≠ "" →
      m.is_admin = true →
      alGet st.roomAdmins rid = none →
      alGet (handle_register env st ws m).2.roomAdmins rid = some q ∧
      (∃ pl pm otp,
        (handle_register env st ws m).1 =
          [.registeredAuth rid m.token q (some q) pl pm otp])) := by
  refine ⟨?_, ?_, ?_, ?_, ?_⟩
  · intro st rid a b h1 h2
    rw [h1] at h2
    exact Option.some.inj h2
  · intro env st ws m j rid q a cl rd hapi hjwt hjne hcl hrid hridne hmem hrd
      hexp hpid hqne hadm ha hane haq
    have hreg : handle_register env st ws m =
        registerFinish env st ws rid (some cl.sub) (some rd) q m.role
          m.metadata m.is_admin m.token false := by
      simp [handle_register, hapi, hjwt, truthyO_some_eq_true hjne,
        registerJwt, hcl, hrid, truthyO_some_eq_true hridne, hmem, hrd,
        hpid, truthyO_some_eq_true hqne]
    rw [hreg]
    unfold registerFinish
    simp only [hexp, hadm, ha, truthyO_some_eq_true hane]
    simp [haq, alGet_alInsert_self, ha]
  · intro st conn a rid hconn ha h1 h2
    unfold handle_disconnect
    rw [hconn]
    simp only [truthyO_some_eq_true ha, if_true, Option.getD_some]
    unfold cleanup_peer
    rw [h1]
    cases hr : alGet st.rooms rid with
    | none => simp [hr, h2, alGet_alErase_self]
    | some room =>
      by_cases hin : (alGet room.peers a).isSome
      · by_cases hempty : (alErase room.peers a).isEmpty
        · simp [hr, hin, hempty, h2, alGet_alErase_self]
        · simp [hr, hin, hempty, h2, alGet_alErase_self]
      · by_cases hempty : room.peers.isEmpty
        · simp [hr, hin, hempty, h2, alGet_alErase_self]
        · simp [hr, hin, hempty, h2, alGet_alErase_self]
  · intro st conn h
    unfold handle_disconnect
    rw [h]
    rfl
  · intro env st ws m j rid q cl rd hapi hjwt hjne hcl hrid hridne hmem hrd
      hexp hpid hqne hadm ha
    have hreg : handle_register env st ws m =
        registerFinish env st ws rid (some cl.sub) (some rd) q m.role
          m.metadata m.is_admin m.token false := by
      simp [handle_register, hapi, hjwt, truthyO_some_eq_true hjne,
        registerJwt, hcl, hrid, truthyO_some_eq_true hridne, hmem, hrd,
        hpid, truthyO_some_eq_true hqne]
    rw [hreg]
    unfold registerFinish
    simp only [hexp, hadm, ha]
    simp [alGet_alInsert_self]

/-- Witness for the amended C8, on the concrete room R with admin a0 and
contender q: the conflict behavior, the tracked disconnect clearing a0,
the untracked disconnect changing nothing, and q becoming admin in a
state with no designated admin. -/
theorem admin_conflict_and_tracked_clear_witness :
    ("a0" : String) = "a0" ∧
    ((∃ pl pm otp,
        (handle_register C8ex.env C8ex.st 2 C8ex.m).1 =
          [.adminConflict "R" "a0",
           .registeredAuth "R" none "q" (some "a0") pl pm otp]) ∧
      alGet (handle_register C8ex.env C8ex.st 2 C8ex.m).2.roomAdmins "R" = some "a0" ∧
      (∃ room2, alGet (handle_register C8ex.env C8ex.st 2 C8ex.m).2.rooms "R" = some room2 ∧
        (alGet room2.peers "q").isSome = true)) ∧
    alGet (handle_disconnect C8ex.st { peerId := some "a0" }).roomAdmins "R" = none ∧
    handle_disconnect C8ex.st { peerId := none } = C8ex.st ∧
    (alGet (handle_register C8ex.env {} 3 C8ex.m).2.roomAdmins "R" = some "q" ∧
      (∃ pl pm otp,
        (handle_register C8ex.env {} 3 C8ex.m).1 =
          [.registeredAuth "R" none "q" (some "q") pl pm otp])) :=
  ⟨admin_conflict_and_tracked_clear.1 C8ex.st "R" "a0" "a0" (by decide) (by decide),
   admin_conflict_and_tracked_clear.2.1 C8ex.env C8ex.st 2 C8ex.m "J" "R" "q" "a0"
     { sub := "u" } {} rfl rfl (by decide) (by decide) rfl (by decide) (by decide)
     (by decide) rfl rfl (by decide) rfl (by decide) (by decide) (by decide),
   admin_conflict_and_tracked_clear.2.2.1 C8ex.st { peerId := some "a0" } "a0" "R"
     rfl (by decide) (by decide) (by decide),
   admin_conflict_and_tracked_clear.2.2.2.1 C8ex.st { peerId := none } (by decide),
   admin_conflict_and_tracked_clear.2.2.2.2 C8ex.env {} 3 C8ex.m "J" "R" "q"
     { sub := "u" } {} rfl rfl (by decide) (by decide) rfl (by decide) (by decide)
     (by decide) rfl rfl (by decide) rfl (by decide)⟩

theorem strLeB_eq_bnot_strLtB : ∀ (x y : List Char),
    strLeB y x = !(strLtB x y)
  | [], [] => rfl
  | [], _ :: _ => rfl
  | _ :: _, [] => rfl
  | x :: xs, y :: ys => by
    by_cases h : x.toNat = y.toNat
    · simp [strLeB, strLtB, h]
      exact strLeB_eq_bnot_strLtB xs ys
    · have h2 : ¬ y.toNat = x.toNat := fun he => h he.symm
      by_cases h3 : x.toNat < y.toNat
      · have h4 : ¬ y.toNat < x.toNat := by omega
        simp [strLeB, strLtB, h, h2, h3, h4]
      · have h4 : y.toNat < x.toNat := by omega
        simp [strLeB, strLtB, h, h2, h3, h4]

theorem specLe_eq_bnot (a b : Value) (c : Bool) (h : pyLt a b = some c) :
    specLe b a = !c := by
  cases a with
  | vNull => cases b <;> simp [pyLt] at h
  | vInt x =>
    cases b with
    | vNull => simp [pyLt] at h
    | vInt y =>
      simp [pyLt] at h
      subst h
      simp only [specLe]
      by_cases h2 : x < y
      · have h3 : ¬ y ≤ x := by omega
        simp [h2, h3]
      · have h3 : y ≤ x := by omega
        simp [h2, h3]
    | vStr s2 => simp [pyLt] at h
  | vStr x =>
    cases b with
    | vNull => simp [pyLt] at h
    | vInt n => simp [pyLt] at h
    | vStr y =>
      simp [pyLt] at h
      subst h
      simp only [specLe]
      exact strLeB_eq_bnot_strLtB x.data y.data

theorem gteStep_amended (pv : Value) (g : Option Value) (b : Bool)
    (h : gteStep pv g = some b) : b = amendedGte pv g := by
  cases g with
  | none => simpa [gteStep, amendedGte] using h.symm
  | some gv =>
    simp only [gteStep] at h
    simp only [amendedGte]
    by_cases hn : pv = Value.vNull
    · simp [hn] at h
      simp [hn, ← h]
    · simp only [if_neg hn] at h
      cases hlt : pyLt pv gv with
      | none => rw [hlt] at h; cases h
      | some c =>
        rw [hlt] at h
        have hs := specLe_eq_bnot pv gv c hlt
        cases c with
        | true =>
          simp at h
          simp [← h, hn, hs]
        | false =>
          simp at h
          simp [← h, hn, hs]

theorem lteStep_amended (pv : Value) (l : Option Value) (b : Bool)
    (h : lteStep pv l = some b) : b = amendedLte pv l := by
  cases l with
  | none => simpa [lteStep, amendedLte] using h.symm
  | some lv =>
    simp only [lteStep] at h
    simp only [amendedLte]
    by_cases hn : pv = Value.vNull
    · simp [hn] at h
      simp [hn, ← h]
    · simp only [if_neg hn] at h
      cases hlt : pyLt lv pv with
      | none => rw [hlt] at h; cases h
      | some c =>
        rw [hlt] at h
        have hs := specLe_eq_bnot lv pv c hlt
        cases c with
        | true =>
          simp at h
          simp [← h, hn, hs]
        | false =>
          simp at h
          simp [← h, hn, hs]

theorem matchProperty_amended_eq (props : List (String × Value)) (key : String)
    (fv : FilterVal) (b : Bool) (h : matchProperty props key fv = some b) :
    b = amendedPropertyOk props key fv := by
  cases fv with
  | scalar v =>
    simp only [matchProperty] at h
    simp only [amendedPropertyOk]
    exact (Option.some.inj h).symm
  | ops g l e =>
    simp only [matchProperty] at h
    simp only [amendedPropertyOk]
    cases hg : gteStep ((alGet props key).getD Value.vNull) g with
    | none => rw [hg] at h; cases h
    | some gb =>
      rw [hg] at h
      have hgb := gteStep_amended _ g gb hg
      cases gb with
      | false =>
        have hb : (false : Bool) = b := Option.some.inj h
        rw [← hb, ← hgb]
        simp
      | true =>
        cases hl : lteStep ((alGet props key).getD Value.vNull) l with
        | none => rw [hl] at h; cases h
        | some lb =>
          rw [hl] at h
          have hlb := lteStep_amended _ l lb hl
          cases lb with
          | false =>
            have hb : (false : Bool) = b := Option.some.inj h
            rw [← hb, ← hgb, ← hlb]
            simp
          | true =>
            cases e with
            | none =>
              have hb : (true : Bool) = b := Option.some.inj h
              rw [← hb, ← hgb, ← hlb]
              simp [amendedEq]
            | some ev =>
              have hb := Option.some.inj h
              rw [← hb, ← hgb, ← hlb]
              simp [amendedEq]

theorem checkProperties_amended_eq (props : List (String × Value))
    (ps : List (String × FilterVal)) (b : Bool)
    (h : checkProperties props ps = some b) :
    b = ps.all (fun e => amendedPropertyOk props e.1 e.2) := by
  induction ps generalizing b with
  | nil =>
    simp only [checkProperties] at h
    simp [← Option.some.inj h]
  | cons hd tl ih =>
    obtain ⟨k, fv⟩ := hd
    simp only [checkProperties] at h
    cases hm : matchProperty props k fv with
    | none => rw [hm] at h; cases h
    | some hb =>
      rw [hm] at h
      have hbeq := matchProperty_amended_eq props k fv hb hm
      cases hb with
      | false =>
        simp at h
        simp [← h, List.all_cons, ← hbeq]
      | true =>
        simp only at h
        have := ih b h
        simp [this, List.all_cons, ← hbeq]

theorem filter_isEmpty_eq_bnot_any {γ : Type} (l : List γ) (p : γ → Bool) :
    (l.filter p).isEmpty = !(l.any p) := by
  induction l with
  | nil => rfl
  | cons x xs ih =>
    by_cases hx : p x <;> simp [List.filter, hx, ih]

theorem matches_filters_amended_eq (p : Peer) (f : Filters) (b : Bool)
    (h : matches_filters p f = some b) : b = amendedMatches p f := by
  unfold matches_filters at h
  unfold amendedMatches
  by_cases hrole : (match f.role with
                    | some r => p.role != r
                    | none => false) = true
  · rw [if_pos hrole] at h
    have hb : b = false := (Option.some.inj h).symm
    subst hb
    cases hr : f.role with
    | none => rw [hr] at hrole; exact absurd hrole (by simp)
    | some r =>
      have hne : p.role ≠ r := by
        rw [hr] at hrole
        simpa using hrole
      simp [hne]
  · rw [if_neg hrole] at h
    have hroleT : (match f.role with
                   | some r => decide (p.role = r)
                   | none => true) = true := by
      cases hr : f.role with
      | none => rfl
      | some r =>
        rw [hr] at hrole
        have hpr : p.role = r := by simpa using hrole
        simp [hpr]
    by_cases htags : (match f.tags with
                      | some fts => ((p.metadata.tags.getD []).filter
                          (fun t => fts.contains t)).isEmpty
                      | none => false) = true
    · rw [if_pos htags] at h
      have hb : b = false := (Option.some.inj h).symm
      subst hb
      cases ht : f.tags with
      | none => rw [ht] at htags; exact absurd htags (by simp)
      | some fts =>
        rw [ht] at htags
        rw [show (match some fts with
                  | some fts => ((p.metadata.tags.getD []).filter
                      (fun t => fts.contains t)).isEmpty
                  | none => false) =
              ((p.metadata.tags.getD []).filter
                  (fun t => fts.contains t)).isEmpty from rfl,
            filter_isEmpty_eq_bnot_any] at htags
        have h3 : (p.metadata.tags.getD []).any (fun t => fts.contains t) = false := by
          simpa using htags
        dsimp only
        rw [h3]
        simp
    · rw [if_neg htags] at h
      have htagsT : (match f.tags with
                     | some ts => (p.metadata.tags.getD []).any
                         (fun t => ts.contains t)
                     | none => true) = true := by
        cases ht : f.tags with
        | none => rfl
        | some fts =>
          rw [ht] at htags
          have h2 : ((p.metadata.tags.getD []).filter
              (fun t => fts.contains t)).isEmpty = false :=
            Bool.eq_false_iff.mpr htags
          rw [filter_isEmpty_eq_bnot_any] at h2
          have h3 : (p.metadata.tags.getD []).any (fun t => fts.contains t) = true := by
            simpa using h2
          exact h3
      cases hp : f.properties with
      | none =>
        rw [hp] at h
        have hb : b = true := (Option.some.inj h).symm
        subst hb
        rw [hroleT, htagsT]
        rfl
      | some ps =>
        rw [hp] at h
        have hc := checkProperties_amended_eq _ ps b h
        subst hc
        rw [hroleT, htagsT]
        rfl

theorem collectMatches_characterization (fpid : String) (fl : Filters) :
    ∀ (peers : List (String × Peer)) (entries : List PeerInfo),
    collectMatches fpid fl peers = some entries →
    (∀ i ∈ entries, i.peer_id ≠ fpid) ∧
    (∀ i ∈ entries, ∃ pd, (i.peer_id, pd) ∈ peers ∧
        amendedMatches pd fl = true ∧ i.role = pd.role ∧
        i.metadata = pd.metadata ∧ i.connected_at = pd.connected_at) ∧
    (∀ pid pd, (pid, pd) ∈ peers → pid ≠ fpid → amendedMatches pd fl = true →
        (⟨pid, pd.role, pd.metadata, pd.connected_at⟩ : PeerInfo) ∈ entries) := by
  intro peers
  induction peers with
  | nil =>
    intro entries h
    simp only [collectMatches] at h
    have he : entries = [] := (Option.some.inj h).symm
    subst he
    simp
  | cons hd tl ih =>
    intro entries h
    obtain ⟨pid0, pd0⟩ := hd
    simp only [collectMatches] at h
    by_cases hp : pid0 = fpid
    · rw [if_pos hp] at h
      obtain ⟨h1, h2, h3⟩ := ih entries h
      refine ⟨h1, ?_, ?_⟩
      · intro i hi
        obtain ⟨pd, hmem, rest⟩ := h2 i hi
        exact ⟨pd, List.mem_cons_of_mem _ hmem, rest⟩
      · intro pid pd hmem hne hmatch
        rcases List.mem_cons.mp hmem with heq | hmem2
        · exfalso
          apply hne
          have : pid = pid0 := congrArg Prod.fst heq
          rw [this, hp]
        · exact h3 pid pd hmem2 hne hmatch
    · rw [if_neg hp] at h
      cases hm : matches_filters pd0 fl with
      | none => rw [hm] at h; cases h
      | some mb =>
        rw [hm] at h
        have hmb := matches_filters_amended_eq pd0 fl mb hm
        cases mb with
        | false =>
          simp only at h
          obtain ⟨h1, h2, h3⟩ := ih entries h
          refine ⟨h1, ?_, ?_⟩
          · intro i hi
            obtain ⟨pd, hmem, rest⟩ := h2 i hi
            exact ⟨pd, List.mem_cons_of_mem _ hmem, rest⟩
          · intro pid pd hmem hne hmatch
            rcases List.mem_cons.mp hmem with heq | hmem2
            · exfalso
              have hpid : pid = pid0 := congrArg Prod.fst heq
              have hpd : pd = pd0 := congrArg Prod.snd heq
              rw [hpd] at hmatch
              rw [← hmb] at hmatch
              cases hmatch
            · exact h3 pid pd hmem2 hne hmatch
        | true =>
          simp only at h
          cases hrec : collectMatches fpid fl tl with
          | none => rw [hrec] at h; cases h
          | some tlE =>
            rw [hrec] at h
            have he : entries = ⟨pid0, pd0.role, pd0.metadata, pd0.connected_at⟩ :: tlE :=
              (Option.some.inj h).symm
            subst he
            obtain ⟨h1, h2, h3⟩ := ih tlE hrec
            refine ⟨?_, ?_, ?_⟩
            · intro i hi
              rcases List.mem_cons.mp hi with heq | hi2
              · rw [heq]
                exact hp
              · exact h1 i hi2
            · intro i hi
              rcases List.mem_cons.mp hi with heq | hi2
              · subst heq
                exact ⟨pd0, List.mem_cons_self _ _, hmb.symm, rfl, rfl, rfl⟩
              · obtain ⟨pd, hmem, rest⟩ := h2 i hi2
                exact ⟨pd, List.mem_cons_of_mem _ hmem, rest⟩
            · intro pid pd hmem hne hmatch
              rcases List.mem_cons.mp hmem with heq | hmem2
              · have hpid : pid = pid0 := congrArg Prod.fst heq
                have hpd : pd = pd0 := congrArg Prod.snd heq
                subst hpid
                subst hpd
                exact List.mem_cons_self _ _
              · exact List.mem_cons_of_mem _ (h3 pid pd hmem2 hne hmatch)

/-- C9 amended: for a registered caller in an existing room whose filter
evaluation raises no exception, handle_discover_peers replies with exactly
the collected entries and leaves the state unchanged; an entry never names
the caller; every returned entry corresponds to a room peer satisfying the
amended filter predicate (role equal, tags intersecting, every gte / lte /
eq operator and scalar equality satisfied, where a missing property and a
stored null are identified: non-matching for gte / lte and for equality
against non-null values, matching for equality against null); and every
non-caller room peer satisfying the predicate is returned. -/
theorem discover_filter_characterization (st : ServerState) (f : String)
    (fl : Filters) (rid : String) (room : RoomLive) (entries : List PeerInfo)
    (h1 : alGet st.peerToRoom f = some rid)
    (h2 : alGet st.rooms rid = some room)
    (h3 : collectMatches f fl room.peers = some entries) :
    handle_discover_peers st (some f) fl =
      some ([.peerList f entries entries.length], st) ∧
    (∀ i ∈ entries, i.peer_id ≠ f) ∧
    (∀ i ∈ entries, ∃ pd, (i.peer_id, pd) ∈ room.peers ∧
        amendedMatches pd fl = true ∧ i.role = pd.role ∧
        i.metadata = pd.metadata ∧ i.connected_at = pd.connected_at) ∧
    (∀ pid pd, (pid, pd) ∈ room.peers → pid ≠ f →
        amendedMatches pd fl = true →
        (⟨pid, pd.role, pd.metadata, pd.connected_at⟩ : PeerInfo) ∈ entries) := by
  obtain ⟨ha, hb, hc⟩ := collectMatches_characterization f fl room.peers entries h3
  refine ⟨?_, ha, hb, hc⟩
  simp [handle_discover_peers, h1, h2, h3]

/-- Witness for the amended C9: the client c discovers with a role filter
in the two-peer room R; the single entry is the worker w. -/
theorem discover_filter_characterization_witness :
    handle_discover_peers C9ex.st (some "c") C9ex.fl2 =
      some ([.peerList "c" [⟨"w", "worker", {}, 0⟩] 1], C9ex.st) ∧
    (∀ i ∈ [(⟨"w", "worker", {}, 0⟩ : PeerInfo)], i.peer_id ≠ "c") ∧
    (∀ i ∈ [(⟨"w", "worker", {}, 0⟩ : PeerInfo)],
      ∃ pd, (i.peer_id, pd) ∈ C9ex.room.peers ∧
        amendedMatches pd C9ex.fl2 = true ∧ i.role = pd.role ∧
        i.metadata = pd.metadata ∧ i.connected_at = pd.connected_at) ∧
    (∀ pid pd, (pid, pd) ∈ C9ex.room.peers → pid ≠ "c" →
        amendedMatches pd C9ex.fl2 = true →
        (⟨pid, pd.role, pd.metadata, pd.connected_at⟩ : PeerInfo) ∈
          [(⟨"w", "worker", {}, 0⟩ : PeerInfo)]) :=
  discover_filter_characterization C9ex.st "c" C9ex.fl2 "R" C9ex.room
    [⟨"w", "worker", {}, 0⟩] (by decide) (by decide) (by decide)

/-- C10: confirmed.  A properties filter whose value is an operator
document with none of the three recognized operators (for example a
document carrying only a ne operator) is modelled as ops none none none;
its clause evaluates to true for every peer properties dict, so it
constrains nothing. -/
theorem empty_operator_document_matches_all (props : List (String × Value))
    (key : String) : matchProperty props key (.ops none none none) = some true := rfl

end WebRTC
